import Mathlib

/-!
Verification development for the Mayomide Store Price Manager (`src/app.py`).

The app is a single-file Streamlit front end over four Supabase tables
(`products`, `categories`, `price_history`, `app_settings`).  We embed the
data model and the module-level logic shallowly:

* numeric prices become `ℚ` (Supabase numeric columns, pandas float64);
* integer ids become `ℤ`;
* timestamps become `ℕ` (the code stores ISO-8601 UTC strings, whose
  lexicographic order coincides with chronological order, and the
  `price_history.timestamp` column is filled by the backend's insertion-time
  default since `update_price` does not set it);
* a table is a `List` of rows in storage order;
* each Supabase call made by a code path becomes an explicit storage
  operation, so write ordering is visible as list ordering.

Float-specific behaviour of the pandas history view (division by zero
producing signed infinities and NaN) is embedded by a small cell datatype.
-/

namespace Mayomide

/-- A row of the `products` table (columns as in `fetch_tables`). -/
structure Product where
  id : ℤ
  name : String
  category_id : Option ℤ
  unit : String
  current_price : ℚ
  image_url : Option String
  last_updated : ℕ
  updated_by : String
  deriving Repr, DecidableEq

/-- A row of the `categories` table. -/
structure Category where
  id : ℤ
  name : String
  deriving Repr, DecidableEq

/-- A row of the `price_history` table.  `update_price` inserts the row
without a `timestamp`; the backend's column default stamps it with the
insertion time, which we make explicit. -/
structure HistoryRow where
  product_id : ℤ
  old_price : ℚ
  new_price : ℚ
  updated_by : String
  timestamp : ℕ
  note : String
  deriving Repr, DecidableEq

/-- The persistent state: the four tables.  `app_settings` holds at most one
row (the code reads it with `.limit(1)`), modelled as an optional password. -/
structure DB where
  products : List Product
  categories : List Category
  history : List HistoryRow
  settingsRow : Option String
  deriving Repr, DecidableEq

/-- `get_update_password`: `settings.get("update_password") or ""` — a missing
settings row yields the empty password. -/
def get_update_password (db : DB) : String :=
  db.settingsRow.getD ""

/-- One Supabase write issued by `update_price`, in the order the code issues
them.  `insertHistory` is `supabase.table("price_history").insert(...)`
(the backend default supplies the row's timestamp); `updateProducts` is
`supabase.table("products").update({...}).eq("id", product_id)`. -/
inductive StoreOp where
  | insertHistory (row : HistoryRow)
  | updateProducts (product_id : ℤ) (new_price : ℚ) (last_updated : ℕ) (updated_by : String)
  deriving Repr, DecidableEq

/-- Effect of one storage operation on the database state.  A products
update touches every row matching the id filter (ids are unique in the data
model, so at most one) and only the three listed columns; an insert appends
at the end of the table. -/
def applyOp (db : DB) : StoreOp → DB
  | .insertHistory row => { db with history := db.history ++ [row] }
  | .updateProducts pid np lu ub =>
      { db with products := db.products.map (fun p =>
          if p.id = pid then
            { p with current_price := np, last_updated := lu, updated_by := ub }
          else p) }

/-- The sequence of writes `update_price(product_id, old_price, new_price,
updated_by, note)` issues, in program order: history insert first, then the
products update.  `now` is the wall-clock instant of the call: the backend
stamps the inserted history row with it, and the code itself passes
`datetime.utcnow().isoformat()` as `last_updated`. -/
def update_price_ops (product_id : ℤ) (old_price new_price : ℚ)
    (updated_by note : String) (now : ℕ) : List StoreOp :=
  [ .insertHistory ⟨product_id, old_price, new_price, updated_by, now, note⟩,
    .updateProducts product_id new_price now updated_by ]

/-- `update_price` (src/app.py lines 64–79): runs its two writes in order.
It performs no input validation and no existence check. -/
def update_price (db : DB) (product_id : ℤ) (old_price new_price : ℚ)
    (updated_by note : String) (now : ℕ) : DB :=
  (update_price_ops product_id old_price new_price updated_by note now).foldl applyOp db

/-- The product row the UI selects for a given id:
`products_df[products_df['id'] == sel_id].iloc[0]`, i.e. the first row whose
id matches (none when the id is absent). -/
def findProduct (db : DB) (product_id : ℤ) : Option Product :=
  db.products.find? (fun p => p.id = product_id)

/-- The save action of the price-change flow (src/app.py lines 169–172
composed with `update_price`): the UI reads `old_price` from the selected
product row and calls `update_price`.  The UI can only reach the save button
with an existing selected product, so the composition is partial in the
product lookup. -/
def changePrice (db : DB) (product_id : ℤ) (new_price : ℚ)
    (editor note : String) (now : ℕ) : Option DB :=
  (findProduct db product_id).map (fun p =>
    update_price db product_id p.current_price new_price editor note now)

/-! ### Catalog filtering (src/app.py lines 122–134)

`pd.Series.str.contains(q, case=False)` treats `q` as a regular expression;
for a pattern free of regex metacharacters this is exactly a
case-insensitive substring test, which is what we embed (lower-casing is
ASCII `Char.toLower`, matching Python on the ASCII names the app stores).
-/

/-- Check that `pat` occurs at the head of `hay` (both as character lists). -/
def leadsWith : List Char → List Char → Bool
  | [], _ => true
  | _ :: _, [] => false
  | p :: ps, h :: hs => p = h && leadsWith ps hs

/-- Check that `pat` occurs contiguously somewhere in `hay`. -/
def containsChars (pat hay : List Char) : Bool :=
  match hay with
  | [] => leadsWith pat []
  | _ :: hs => leadsWith pat hay || containsChars pat hs

/-- Case-insensitive substring test, the meaning of
`str.contains(q, case=False)` for a metacharacter-free `q`. -/
def containsCI (hay pat : String) : Bool :=
  containsChars pat.toLower.toList hay.toLower.toList

/-- True when `q` uses none of Python's regex metacharacters, so that
`str.contains(q, case=False)` degenerates to the substring test above. -/
def regexFree (q : String) : Bool :=
  q.toList.all (fun c => !([ '.', '^', '$', '*', '+', '?', '{', '}',
    '[', ']', '(', ')', '|', '\\' ].contains c))

/-- Resolution of a product's `category_id` through
`cat_map = dict(zip(categories_df['id'], categories_df['name']))`: a Python
dict built from pairs keeps the LAST binding of a duplicated key, and a null
`category_id` (or an id absent from the dict) maps to NaN. -/
def resolveCategory (cats : List Category) (cid : Option ℤ) : Option String :=
  cid.bind (fun i => (cats.reverse.find? (fun c => c.id = i)).map (fun c => c.name))

/-- The search predicate of line 131–132: name or `str(id)` contains the
query case-insensitively (`na=False` excludes missing names; names are
modelled as always-present strings). -/
def searchHit (q : String) (p : Product) : Bool :=
  containsCI p.name q || containsCI (toString p.id) q

/-- The module-level product filter (src/app.py lines 122–134): the category
filter runs only when the selected category is not the sentinel "All" AND
the categories table is non-empty; the search filter runs only when the
query is non-empty (`if search_q:`).  The two run in sequence on the
products in storage order. -/
def filterProducts (products : List Product) (cats : List Category)
    (selectedCat searchQ : String) : List Product :=
  let afterCat :=
    if selectedCat ≠ "All" ∧ cats ≠ [] then
      products.filter (fun p => resolveCategory cats p.category_id = some selectedCat)
    else products
  if searchQ ≠ "" then afterCat.filter (searchHit searchQ) else afterCat

/-- The filtering policy as the spec words it (for comparison with
`filterProducts`): whenever `categoryName` is set and differs from "All",
keep exactly the products whose resolved category name equals it — with no
condition on the categories table being non-empty. -/
def specFilterPolicy (products : List Product) (cats : List Category)
    (selectedCat searchQ : String) : List Product :=
  let afterCat :=
    if selectedCat ≠ "All" then
      products.filter (fun p => resolveCategory cats p.category_id = some selectedCat)
    else products
  if searchQ ≠ "" then afterCat.filter (searchHit searchQ) else afterCat

/-! ### Price-history view (src/app.py lines 181–200)

`ph.sort_values(by='timestamp', ascending=False)` is a stable descending
sort on the timestamp column; we embed it as a stable insertion sort.
-/

/-- Insert a row into a descending-sorted list, after every row with a
timestamp ≥ its own (stability: among equal timestamps, earlier storage
rows stay first). -/
def insertDesc (r : HistoryRow) : List HistoryRow → List HistoryRow
  | [] => [r]
  | x :: xs =>
      if r.timestamp ≥ x.timestamp then r :: x :: xs
      else x :: insertDesc r xs

/-- Stable descending sort by timestamp (`sort_values(ascending=False)`). -/
def sortDesc (l : List HistoryRow) : List HistoryRow :=
  l.foldr insertDesc []

/-- The rows `btn_history` displays for the selected product:
`history_df[history_df['product_id'] == sel_id]` then the descending sort
(line 183 and line 191). -/
def getHistory (db : DB) (product_id : ℤ) : List HistoryRow :=
  sortDesc (db.history.filter (fun r => r.product_id = product_id))

/-- Value of a pandas float64 cell in the derived history columns: a finite
number, a signed infinity, or NaN. -/
inductive Cell where
  | fin (q : ℚ)
  | posInf
  | negInf
  | nan
  deriving Repr, DecidableEq

/-- Rounding to two decimals on exact rationals, the embedding of
`.round(2)` on the finite values the view computes. -/
def round2 (q : ℚ) : ℚ :=
  (round (q * 100) : ℤ) / 100

/-- The `pct_change` column of line 190,
`((ph['diff'] / ph['old_price']) * 100).round(2)`, under IEEE float64
semantics: a zero `old_price` makes the division produce a signed infinity
(NaN when the diff is also zero) which `* 100` and `.round(2)` preserve;
there is no division-by-zero guard in the code. -/
def pctCell (old_price new_price : ℚ) : Cell :=
  if old_price = 0 then
    if new_price - old_price = 0 then .nan
    else if new_price - old_price > 0 then .posInf
    else .negInf
  else .fin (round2 ((new_price - old_price) / old_price * 100))

/-- The `diff` column of line 189: `new_price - old_price`. -/
def diffCell (old_price new_price : ℚ) : ℚ :=
  new_price - old_price

/-- One displayed row of the history table (line 192): the stored columns
plus the two derived ones. -/
structure ViewRow where
  timestamp : ℕ
  old_price : ℚ
  new_price : ℚ
  diff : ℚ
  pct_change : Cell
  updated_by : String
  note : String
  deriving Repr, DecidableEq

/-- Assemble the displayed table for a product: derived columns on top of
the filtered, descending-sorted history. -/
def historyView (db : DB) (product_id : ℤ) : List ViewRow :=
  (getHistory db product_id).map (fun r =>
    ⟨r.timestamp, r.old_price, r.new_price,
     diffCell r.old_price r.new_price,
     pctCell r.old_price r.new_price,
     r.updated_by, r.note⟩)

/-! ### Password gates (src/app.py lines 159–179 and 204–240)

Both gates first test the submitted text with Python truthiness
(`if pw:` / `if admin_pw:`): an empty submission is never compared at all —
neither the success nor the denial branch runs.
-/

/-- Outcome of submitting a candidate password to either gate. -/
inductive GateOutcome where
  | accepted
  | denied
  | idle
  deriving Repr, DecidableEq

/-- The password check both gates share: empty input is ignored
(`if pw:` is false), non-empty input is compared exactly
(`pw == update_password`, case-sensitive, untrimmed). -/
def gateCheck (candidate stored : String) : GateOutcome :=
  if candidate = "" then .idle
  else if candidate = stored then .accepted
  else .denied

/-- `change_shared_password` (src/app.py lines 81–88): update the existing
settings row if one exists, else insert one.  Either way the stored password
becomes `new_password` and no other table is touched. -/
def change_shared_password (db : DB) (new_password : String) : DB :=
  match db.settingsRow with
  | some _ => { db with settingsRow := some new_password }
  | none => { db with settingsRow := some new_password }

/-- Outcome of the admin change-password flow. -/
inductive AdminOutcome where
  | denied
  | changed
  | emptyNoOp
  | idle
  deriving Repr, DecidableEq

/-- The admin panel's change-password flow (src/app.py lines 206–218):
an empty current password is never evaluated (`if admin_pw:`); a non-empty
wrong one is denied; with access granted, a non-empty new password is
stored via `change_shared_password` and an empty one is reported as
"No new password entered" without touching storage. -/
def adminChangePassword (db : DB) (current new_password : String) :
    AdminOutcome × DB :=
  match gateCheck current (get_update_password db) with
  | .idle => (.idle, db)
  | .denied => (.denied, db)
  | .accepted =>
      if new_password ≠ "" then (.changed, change_shared_password db new_password)
      else (.emptyNoOp, db)

/-! ### Lemmas about the stable descending sort -/

/-- Inserting a row permutes consing it. -/
theorem insertDesc_perm (r : HistoryRow) (l : List HistoryRow) :
    (insertDesc r l).Perm (r :: l) := by
  induction l with
  | nil => simp [insertDesc]
  | cons x xs ih =>
      by_cases hc : r.timestamp ≥ x.timestamp
      · simp [insertDesc, hc]
      · simp only [insertDesc, if_neg hc]
        exact (ih.cons x).trans (List.Perm.swap r x xs)

/-- Inserting into a descending-sorted list keeps it descending-sorted. -/
theorem insertDesc_pairwise (r : HistoryRow) (l : List HistoryRow)
    (h : l.Pairwise (fun a b => b.timestamp ≤ a.timestamp)) :
    (insertDesc r l).Pairwise (fun a b => b.timestamp ≤ a.timestamp) := by
  induction l with
  | nil => simp [insertDesc]
  | cons x xs ih =>
      rw [List.pairwise_cons] at h
      by_cases hc : r.timestamp ≥ x.timestamp
      · rw [insertDesc, if_pos hc, List.pairwise_cons]
        refine ⟨?_, List.pairwise_cons.mpr h⟩
        intro b hb
        rcases List.mem_cons.mp hb with hb | hb
        · exact hb ▸ hc
        · exact le_trans (h.1 b hb) hc
      · rw [insertDesc, if_neg hc, List.pairwise_cons]
        refine ⟨?_, ih h.2⟩
        intro b hb
        rcases List.mem_cons.mp ((insertDesc_perm r xs).mem_iff.mp hb) with hb | hb
        · simpa [hb] using le_of_not_le hc
        · exact h.1 b hb

/-- `sortDesc` permutes its input. -/
theorem sortDesc_perm (l : List HistoryRow) : (sortDesc l).Perm l := by
  induction l with
  | nil => simp [sortDesc]
  | cons x xs ih => exact (insertDesc_perm x (sortDesc xs)).trans (ih.cons x)

/-- `sortDesc` output is descending in the timestamp column. -/
theorem sortDesc_pairwise (l : List HistoryRow) :
    (sortDesc l).Pairwise (fun a b => b.timestamp ≤ a.timestamp) := by
  induction l with
  | nil => simp [sortDesc]
  | cons x xs ih => exact insertDesc_pairwise x (sortDesc xs) ih

/-- Appending a row whose timestamp is strictly newer than every existing
row sorts to the front: the new row leads and the rest is the previous
sorted view. -/
theorem sortDesc_append_newest (l : List HistoryRow) (e : HistoryRow)
    (h : ∀ x ∈ l, x.timestamp < e.timestamp) :
    sortDesc (l ++ [e]) = e :: sortDesc l := by
  induction l with
  | nil => simp [sortDesc, insertDesc]
  | cons x xs ih =>
      have hx : x.timestamp < e.timestamp := h x (List.mem_cons_self x xs)
      have htail : ∀ y ∈ xs, y.timestamp < e.timestamp :=
        fun y hy => h y (List.mem_cons_of_mem x hy)
      show insertDesc x (sortDesc (xs ++ [e])) = e :: sortDesc (x :: xs)
      rw [ih htail, insertDesc, if_neg (not_le.mpr hx)]
      rfl

/-! ### Shared unfolding lemmas and concrete fixtures -/

/-- The two writes of `update_price`, folded into one state change: the
history table gains exactly the one new row at its end and the products
table is rewritten pointwise at the matching id. -/
theorem update_price_eq (db : DB) (pid : ℤ) (oldP newP : ℚ)
    (ed note : String) (now : ℕ) :
    update_price db pid oldP newP ed note now =
      { db with
        products := db.products.map (fun p =>
          if p.id = pid then
            { p with current_price := newP, last_updated := now, updated_by := ed }
          else p),
        history := db.history ++ [⟨pid, oldP, newP, ed, now, note⟩] } := rfl

/-- The products-table rewrite never changes a row's id. -/
theorem priceUpdate_id (pid : ℤ) (newP : ℚ) (now : ℕ) (ed : String) (p : Product) :
    (if p.id = pid then
      { p with current_price := newP, last_updated := now, updated_by := ed }
    else p).id = p.id := by
  by_cases h : p.id = pid <;> simp [h]

/-- First-match lookup commutes with an id-preserving rewrite of the rows. -/
theorem find?_map_id_preserving (l : List Product) (f : Product → Product)
    (hf : ∀ p, (f p).id = p.id) (pid : ℤ) :
    (l.map f).find? (fun p => p.id = pid) =
      (l.find? (fun p => p.id = pid)).map f := by
  induction l with
  | nil => rfl
  | cons x xs ih =>
      by_cases h : x.id = pid
      · simp [List.find?, hf, h]
      · simp [List.find?, hf, h, ih]

/-- Looking a product up after `update_price` finds the rewritten image of
the row the lookup found before. -/
theorem findProduct_update (db : DB) (pid : ℤ) (oldP newP : ℚ)
    (ed note : String) (now : ℕ) :
    findProduct (update_price db pid oldP newP ed note now) pid =
      (findProduct db pid).map (fun p =>
        if p.id = pid then
          { p with current_price := newP, last_updated := now, updated_by := ed }
        else p) := by
  unfold findProduct
  rw [update_price_eq]
  exact find?_map_id_preserving db.products _ (priceUpdate_id pid newP now ed) pid

/-- Both branches of `change_shared_password` leave the settings row holding
exactly the new password. -/
theorem change_shared_password_eq (db : DB) (npw : String) :
    change_shared_password db npw = { db with settingsRow := some npw } := by
  rcases db with ⟨ps, cs, hs, sr⟩
  cases sr <;> rfl

/-- The seed product of the spec's end-to-end scenario. -/
def riceP : Product := ⟨1, "Rice", some 10, "1kg", 5000, none, 0, "Mom"⟩

/-- The seed category of the spec's scenarios. -/
def grainsC : Category := ⟨10, "Grains"⟩

/-- A database holding the seed product, its category, no history, and the
shared password "pw". -/
def demoDB : DB := ⟨[riceP], [grainsC], [], some "pw"⟩

/-- A database with no products at all. -/
def emptyDB : DB := ⟨[], [], [], some "pw"⟩

/-- A database with no settings row (so the stored password reads as ""). -/
def noSettingsDB : DB := ⟨[], [], [], none⟩

/-- A database whose one history row has a zero `old_price`. -/
def zeroOldDB : DB := ⟨[], [], [⟨1, 0, 100, "Mom", 3, "promo"⟩], none⟩

/-! ### Claim C7 — Access Gate equality -/

/-- C7, counterexample: with an empty stored password, an empty candidate is
NOT accepted as the claim states; the gate's leading truthiness test
(`if pw:`) never evaluates the comparison, so the submission is ignored
(no success branch runs) rather than accepted. -/
theorem C7_counterexample :
    gateCheck "" "" = GateOutcome.idle ∧
    GateOutcome.idle ≠ GateOutcome.accepted := by
  exact ⟨rfl, by decide⟩

/-- C7, amended: a candidate is accepted iff it is non-empty and exactly
equal (case-sensitive, untrimmed) to the stored password; a non-empty
non-matching candidate is denied; an empty candidate is never evaluated at
all, so with an empty stored password no submission is ever accepted. -/
theorem C7_verify_nonempty_exact_equality : ∀ candidate stored : String,
    (gateCheck candidate stored = GateOutcome.accepted ↔
      candidate ≠ "" ∧ candidate = stored) ∧
    (gateCheck candidate stored = GateOutcome.denied ↔
      candidate ≠ "" ∧ candidate ≠ stored) ∧
    (gateCheck candidate stored = GateOutcome.idle ↔ candidate = "") := by
  intro c s
  unfold gateCheck
  by_cases h1 : c = ""
  · simp [h1]
  · by_cases h2 : c = s
    · subst h2
      simp [h1]
    · simp [h1, h2]

/-! ### Claim C8 — changing the shared password -/

/-- C8, counterexample: an empty submitted current password differs from the
stored password "pw", yet the admin gate reports nothing (idle) instead of
the claimed AccessDenied; and with no settings row (stored password ""), the
matching empty current password still changes nothing, against the claim's
"when current is correct, the password is updated". -/
theorem C8_counterexample :
    adminChangePassword demoDB "" "y" = (AdminOutcome.idle, demoDB) ∧
    AdminOutcome.idle ≠ AdminOutcome.denied ∧
    adminChangePassword noSettingsDB "" "y" = (AdminOutcome.idle, noSettingsDB) ∧
    noSettingsDB.settingsRow ≠ some "y" := by
  refine ⟨rfl, by decide, rfl, by decide⟩

/-- C8, amended: the admin flow evaluates only non-empty submissions: a
non-empty wrong current password is denied with the store untouched; a
non-empty correct one with a non-empty new password upserts the settings
row's password; an empty new password is a reported no-op; an empty current
password produces no action at all (so an empty stored password can never
be changed through this flow). -/
theorem C8_admin_password_change (db : DB) (current newPw : String) :
    (current = "" → adminChangePassword db current newPw = (AdminOutcome.idle, db)) ∧
    (current ≠ "" → current ≠ get_update_password db →
      adminChangePassword db current newPw = (AdminOutcome.denied, db)) ∧
    (current ≠ "" → current = get_update_password db → newPw ≠ "" →
      adminChangePassword db current newPw =
        (AdminOutcome.changed, { db with settingsRow := some newPw })) ∧
    (current ≠ "" → current = get_update_password db → newPw = "" →
      adminChangePassword db current newPw = (AdminOutcome.emptyNoOp, db)) := by
  unfold adminChangePassword gateCheck
  by_cases h1 : current = ""
  · simp [h1]
  · by_cases h2 : current = get_update_password db
    · rw [← h2]
      by_cases h3 : newPw = "" <;> simp [h1, h3, change_shared_password_eq]
    · simp [h1, h2]

/-- C8, witness: the amended theorem applied at concrete inputs — a wrong
non-empty password is denied, a right one changes the stored password, an
empty one does nothing. -/
theorem C8_witness :
    adminChangePassword demoDB "bad" "np" = (AdminOutcome.denied, demoDB) ∧
    adminChangePassword demoDB "pw" "np" =
      (AdminOutcome.changed, { demoDB with settingsRow := some "np" }) ∧
    adminChangePassword demoDB "" "np" = (AdminOutcome.idle, demoDB) :=
  ⟨(C8_admin_password_change demoDB "bad" "np").2.1 (by decide) (by decide),
   (C8_admin_password_change demoDB "pw" "np").2.2.1 (by decide) (by decide) (by decide),
   (C8_admin_password_change demoDB "" "np").1 rfl⟩

/-! ### Claim C9 — catalog filtering -/

/-- C9, counterexample: with an EMPTY categories table and a selected
category other than "All", the code skips the category filter entirely and
keeps every product, while the claimed policy (keep exactly the products
whose resolved category name matches, unresolvable ids excluded) would keep
none. -/
theorem C9_counterexample :
    filterProducts [riceP] [] "Grains" "" = [riceP] ∧
    specFilterPolicy [riceP] [] "Grains" "" = [] ∧
    ([riceP] : List Product) ≠ [] := by
  refine ⟨rfl, rfl, by decide⟩

/-- C9, amended: the filter keeps, in storage order, exactly the products
passing both tests ANDed — the category test (trivially true when the
selection is "All" OR when the categories table is empty, else resolved
category name equal to the selection, unresolvable ids failing), and the
search test (trivially true for an empty query, else a case-insensitive
substring hit on the name or the string form of the id, for
metacharacter-free queries). -/
theorem C9_filter_characterization (products : List Product)
    (cats : List Category) (sc q : String) :
    filterProducts products cats sc q =
      products.filter (fun p =>
        (decide (q = "") || searchHit q p) &&
        (decide (sc = "All") || decide (cats = []) ||
          decide (resolveCategory cats p.category_id = some sc))) := by
  unfold filterProducts
  by_cases h1 : sc = "All" <;> by_cases h2 : cats = [] <;> by_cases h3 : q = "" <;>
    simp [h1, h2, h3, List.filter_filter]

/-! ### Claim C2 — history insert precedes product mutation -/

/-- C2: in the write sequence of `update_price`, every prefix (every
possible crash point) that already contains the products mutation also
contains the history insert, and the state reached by running such a prefix
already holds the new history row.  The price is never mutated before its
audit entry exists. -/
theorem C2_history_before_mutation (db : DB) (pid : ℤ) (oldP newP : ℚ)
    (ed note : String) (now : ℕ) (pre suf : List StoreOp)
    (hsplit : update_price_ops pid oldP newP ed note now = pre ++ suf)
    (hmut : StoreOp.updateProducts pid newP now ed ∈ pre) :
    StoreOp.insertHistory ⟨pid, oldP, newP, ed, now, note⟩ ∈ pre ∧
    HistoryRow.mk pid oldP newP ed now note ∈ (pre.foldl applyOp db).history := by
  rcases pre with _ | ⟨a, _ | ⟨b, rest⟩⟩
  · simp at hmut
  · rw [update_price_ops] at hsplit
    rw [List.singleton_append] at hsplit
    injection hsplit with ha _
    subst ha
    simp at hmut
  · rw [update_price_ops] at hsplit
    rw [List.cons_append, List.cons_append] at hsplit
    injection hsplit with ha hrest
    injection hrest with hb hnil
    subst ha
    subst hb
    have : rest = [] := List.append_eq_nil.mp hnil.symm |>.1
    subst this
    constructor
    · exact List.mem_cons_self _ _
    · simp [applyOp]

/-- C2, witness: the theorem at the spec's end-to-end inputs, with the
prefix holding both writes. -/
theorem C2_witness :
    StoreOp.insertHistory ⟨1, 5000, 5500, "Mom", 7, "bulk buy"⟩ ∈
      [StoreOp.insertHistory ⟨1, 5000, 5500, "Mom", 7, "bulk buy"⟩,
       StoreOp.updateProducts 1 5500 7 "Mom"] ∧
    HistoryRow.mk 1 5000 5500 "Mom" 7 "bulk buy" ∈
      (([StoreOp.insertHistory ⟨1, 5000, 5500, "Mom", 7, "bulk buy"⟩,
         StoreOp.updateProducts 1 5500 7 "Mom"]).foldl applyOp demoDB).history :=
  C2_history_before_mutation demoDB 1 5000 5500 "Mom" "bulk buy" 7
    [StoreOp.insertHistory ⟨1, 5000, 5500, "Mom", 7, "bulk buy"⟩,
     StoreOp.updateProducts 1 5500 7 "Mom"] [] (by decide) (by decide)

/-! ### Claim C6 — history view sorted descending -/

/-- C6: for every database state (hence every insertion order of the
history rows) and every product id, the displayed history is a permutation
of the product's stored rows, sorted descending by timestamp. -/
theorem C6_history_sorted_descending (db : DB) (pid : ℤ) :
    (getHistory db pid).Pairwise (fun a b => b.timestamp ≤ a.timestamp) ∧
    (getHistory db pid).Perm (db.history.filter (fun r => r.product_id = pid)) :=
  ⟨sortDesc_pairwise _, sortDesc_perm _⟩

/-- A successful lookup only returns a row with the looked-up id. -/
theorem findProduct_id (db : DB) (pid : ℤ) (p : Product)
    (hfind : findProduct db pid = some p) : p.id = pid := by
  have h := List.find?_some
    (show db.products.find? (fun q => decide (q.id = pid)) = some p from hfind)
  exact of_decide_eq_true h

/-! ### Claim C1 — a valid price change is applied and logged -/

/-- C1: a price change on an existing product (at a wall-clock instant
later than every logged timestamp) succeeds, leaves the product with the
new price, timestamp and editor, and puts a new leading entry — old price =
the pre-call price, new price, editor, timestamp, note — in front of the
previously displayed history. -/
theorem C1_change_price_applied (db : DB) (pid : ℤ) (p : Product) (newP : ℚ)
    (ed note : String) (now : ℕ)
    (hfind : findProduct db pid = some p) (_hpos : 0 ≤ newP)
    (hnow : ∀ r ∈ db.history, r.timestamp < now) :
    changePrice db pid newP ed note now =
      some (update_price db pid p.current_price newP ed note now) ∧
    findProduct (update_price db pid p.current_price newP ed note now) pid =
      some { p with current_price := newP, last_updated := now, updated_by := ed } ∧
    getHistory (update_price db pid p.current_price newP ed note now) pid =
      HistoryRow.mk pid p.current_price newP ed now note :: getHistory db pid := by
  have hid : p.id = pid := findProduct_id db pid p hfind
  refine ⟨by simp [changePrice, hfind], ?_, ?_⟩
  · rw [findProduct_update, hfind]
    simp [hid]
  · unfold getHistory
    simp only [update_price_eq]
    rw [List.filter_append]
    have hone : [HistoryRow.mk pid p.current_price newP ed now note].filter
        (fun r => r.product_id = pid) =
        [HistoryRow.mk pid p.current_price newP ed now note] := by simp
    rw [hone]
    exact sortDesc_append_newest _ _ (fun x hx => hnow x (List.mem_of_mem_filter hx))

/-- C1, witness: the spec's end-to-end scenario — seed product Rice at 5000,
`changePrice(1, 5500, "Mom", "bulk buy")`. -/
theorem C1_witness :
    changePrice demoDB 1 5500 "Mom" "bulk buy" 7 =
      some (update_price demoDB 1 riceP.current_price 5500 "Mom" "bulk buy" 7) ∧
    findProduct (update_price demoDB 1 riceP.current_price 5500 "Mom" "bulk buy" 7) 1 =
      some { riceP with current_price := 5500, last_updated := 7, updated_by := "Mom" } ∧
    getHistory (update_price demoDB 1 riceP.current_price 5500 "Mom" "bulk buy" 7) 1 =
      HistoryRow.mk 1 riceP.current_price 5500 "Mom" 7 "bulk buy" :: getHistory demoDB 1 :=
  C1_change_price_applied demoDB 1 riceP 5500 "Mom" "bulk buy" 7 (by decide)
    (by decide) (by decide)

/-! ### Claim C3 — negative new price -/

/-- C3, counterexample: a direct price change to −5 on the seed product
does not fail with any ValidationError — it completes, appends a history
row and rewrites the product row, so neither table is left unchanged. -/
theorem C3_counterexample :
    changePrice demoDB 1 (-5) "You" "" 7 =
      some (update_price demoDB 1 5000 (-5) "You" "" 7) ∧
    (update_price demoDB 1 5000 (-5) "You" "" 7).history ≠ demoDB.history ∧
    (update_price demoDB 1 5000 (-5) "You" "" 7).products ≠ demoDB.products := by
  refine ⟨by decide, by decide, by decide⟩

/-- C3, amended: `update_price` performs no price validation — a negative
new price on an existing product is logged and written exactly like a
non-negative one; negative input is prevented only upstream, by the UI's
number widget (`min_value=0.0`), so no ValidationError mechanism exists in
the code. -/
theorem C3_negative_price_written (db : DB) (pid : ℤ) (p : Product) (newP : ℚ)
    (ed note : String) (now : ℕ)
    (hfind : findProduct db pid = some p) (_hneg : newP < 0) :
    changePrice db pid newP ed note now =
      some (update_price db pid p.current_price newP ed note now) ∧
    (update_price db pid p.current_price newP ed note now).history =
      db.history ++ [HistoryRow.mk pid p.current_price newP ed now note] ∧
    findProduct (update_price db pid p.current_price newP ed note now) pid =
      some { p with current_price := newP, last_updated := now, updated_by := ed } := by
  have hid : p.id = pid := findProduct_id db pid p hfind
  refine ⟨by simp [changePrice, hfind], by rw [update_price_eq], ?_⟩
  rw [findProduct_update, hfind]
  simp [hid]

/-- C3, witness: the amended theorem at the concrete negative price −5. -/
theorem C3_witness :
    changePrice demoDB 1 (-5) "You" "late discount" 9 =
      some (update_price demoDB 1 riceP.current_price (-5) "You" "late discount" 9) ∧
    (update_price demoDB 1 riceP.current_price (-5) "You" "late discount" 9).history =
      demoDB.history ++ [HistoryRow.mk 1 riceP.current_price (-5) "You" 9 "late discount"] ∧
    findProduct (update_price demoDB 1 riceP.current_price (-5) "You" "late discount" 9) 1 =
      some { riceP with current_price := -5, last_updated := 9, updated_by := "You" } :=
  C3_negative_price_written demoDB 1 riceP (-5) "You" "late discount" 9 (by decide)
    (by decide)

/-! ### Claim C4 — nonexistent product id -/

/-- C4, counterexample: called with id 7 on a database with no products,
`update_price` raises no NotFound — it completes and appends an orphan
history entry, directly contradicting "appends no history entry". -/
theorem C4_counterexample :
    update_price emptyDB 7 0 10 "You" "" 5 =
      { emptyDB with history := [HistoryRow.mk 7 0 10 "You" 5 ""] } ∧
    (update_price emptyDB 7 0 10 "You" "" 5).history ≠ [] := by
  refine ⟨by decide, by decide⟩

/-- C4, amended: `update_price` performs no existence check and raises no
NotFound — for an id matching no product row it still appends the history
entry, while the products update matches no rows and every table other than
history is unchanged; selecting a nonexistent product is prevented only
upstream by the UI's product list. -/
theorem C4_missing_product_unchecked (db : DB) (pid : ℤ) (oldP newP : ℚ)
    (ed note : String) (now : ℕ)
    (habsent : ∀ p ∈ db.products, p.id ≠ pid) :
    update_price db pid oldP newP ed note now =
      { db with history := db.history ++ [HistoryRow.mk pid oldP newP ed now note] } := by
  rw [update_price_eq]
  have hmap : ∀ l : List Product, (∀ p ∈ l, p.id ≠ pid) →
      l.map (fun p =>
        if p.id = pid then
          { p with current_price := newP, last_updated := now, updated_by := ed }
        else p) = l := by
    intro l hl
    induction l with
    | nil => rfl
    | cons x xs ih =>
        rw [List.map_cons, if_neg (hl x (List.mem_cons_self x xs)),
          ih (fun q hq => hl q (List.mem_cons_of_mem x hq))]
  rw [hmap db.products habsent]

/-- C4, witness: the amended theorem on the empty products table. -/
theorem C4_witness :
    update_price emptyDB 9 0 20 "Sibling1" "n" 6 =
      { emptyDB with history := [HistoryRow.mk 9 0 20 "Sibling1" 6 "n"] } :=
  C4_missing_product_unchecked emptyDB 9 0 20 "Sibling1" "n" 6 (by decide)

/-! ### Claim C5 — derived delta and percent-change columns -/

/-- C5, counterexample: the history entry 0 → 100 displays `pct_change` as
a positive infinity produced by the unguarded float division, a shown
marker value — not an omitted/undefined cell (NaN, the no-value cell, is
what an omission would render as). -/
theorem C5_counterexample :
    historyView zeroOldDB 1 =
      [ViewRow.mk 3 0 100 100 Cell.posInf "Mom" "promo"] ∧
    Cell.posInf ≠ Cell.nan := by
  refine ⟨?_, by decide⟩
  norm_num [historyView, getHistory, sortDesc, insertDesc, zeroOldDB, diffCell, pctCell]

/-- C5, amended: `diff` always equals new − old; for a non-zero old price
`pct_change` equals round((new − old)/old·100, 2); for a zero old price
there is no guard — the float division makes `pct_change` +∞ for a price
increase, −∞ for a decrease, and NaN only when the delta is also zero. -/
theorem C5_view_derived_columns (db : DB) (pid : ℤ) (v : ViewRow)
    (hv : v ∈ historyView db pid) :
    v.diff = v.new_price - v.old_price ∧
    (v.old_price ≠ 0 →
      v.pct_change = Cell.fin (round2 ((v.new_price - v.old_price) / v.old_price * 100))) ∧
    (v.old_price = 0 → v.new_price = 0 → v.pct_change = Cell.nan) ∧
    (v.old_price = 0 → 0 < v.new_price → v.pct_change = Cell.posInf) ∧
    (v.old_price = 0 → v.new_price < 0 → v.pct_change = Cell.negInf) := by
  obtain ⟨r, hr, rfl⟩ := List.mem_map.mp hv
  refine ⟨rfl, ?_, ?_, ?_, ?_⟩
  · intro h0
    have h0' : r.old_price ≠ 0 := h0
    show pctCell r.old_price r.new_price = _
    simp [pctCell, h0']
  · intro h0 hn
    have h0' : r.old_price = 0 := h0
    have hn' : r.new_price = 0 := hn
    show pctCell r.old_price r.new_price = Cell.nan
    simp [pctCell, h0', hn']
  · intro h0 hn
    have h0' : r.old_price = 0 := h0
    have hn' : 0 < r.new_price := hn
    show pctCell r.old_price r.new_price = Cell.posInf
    simp [pctCell, h0', sub_zero, hn'.ne', hn']
  · intro h0 hn
    have h0' : r.old_price = 0 := h0
    have hn' : r.new_price < 0 := hn
    show pctCell r.old_price r.new_price = Cell.negInf
    simp [pctCell, h0', sub_zero, hn'.ne, not_lt.mpr hn'.le]

/-- C5, witness: the amended theorem on the 0 → 100 entry — delta 100 and a
positive-infinity percent cell. -/
theorem C5_witness :
    (ViewRow.mk 3 0 100 100 Cell.posInf "Mom" "promo").diff = 100 - 0 ∧
    (ViewRow.mk 3 0 100 100 Cell.posInf "Mom" "promo").pct_change = Cell.posInf := by
  have h := C5_view_derived_columns zeroOldDB 1
    (ViewRow.mk 3 0 100 100 Cell.posInf "Mom" "promo")
    (by norm_num [historyView, getHistory, sortDesc, insertDesc, zeroOldDB, diffCell,
      pctCell])
  exact ⟨h.1, h.2.2.2.1 rfl (by norm_num)⟩

/-! ### Claim C10 — frame of `update_price` -/

/-- C10: `update_price` appends exactly one history row, leaves categories
and settings untouched, preserves the number and order of product rows,
leaves every row with a non-matching id exactly as it was, and rewrites
only `current_price`, `last_updated` and `updated_by` of a matching row. -/
theorem C10_update_price_frame (db : DB) (pid : ℤ) (oldP newP : ℚ)
    (ed note : String) (now : ℕ) (i : ℕ) (p : Product)
    (hp : db.products[i]? = some p) :
    (update_price db pid oldP newP ed note now).categories = db.categories ∧
    (update_price db pid oldP newP ed note now).settingsRow = db.settingsRow ∧
    (update_price db pid oldP newP ed note now).history =
      db.history ++ [HistoryRow.mk pid oldP newP ed now note] ∧
    (update_price db pid oldP newP ed note now).products.length =
      db.products.length ∧
    (p.id ≠ pid → (update_price db pid oldP newP ed note now).products[i]? = some p) ∧
    (p.id = pid → (update_price db pid oldP newP ed note now).products[i]? =
      some { p with current_price := newP, last_updated := now, updated_by := ed }) := by
  rw [update_price_eq]
  refine ⟨rfl, rfl, rfl, by simp, ?_, ?_⟩
  · intro hne
    show (db.products.map _)[i]? = some p
    rw [List.getElem?_map, hp]
    simp [if_neg hne]
  · intro heq
    show (db.products.map _)[i]? = _
    rw [List.getElem?_map, hp]
    simp [if_pos heq]

/-- C10, witness: the frame facts at the seed database (one product, id 1,
updated in place). -/
theorem C10_witness :
    (update_price demoDB 1 5000 5500 "Mom" "x" 7).categories = demoDB.categories ∧
    (update_price demoDB 1 5000 5500 "Mom" "x" 7).settingsRow = demoDB.settingsRow ∧
    (update_price demoDB 1 5000 5500 "Mom" "x" 7).history =
      demoDB.history ++ [HistoryRow.mk 1 5000 5500 "Mom" 7 "x"] ∧
    (update_price demoDB 1 5000 5500 "Mom" "x" 7).products.length =
      demoDB.products.length ∧
    (update_price demoDB 1 5000 5500 "Mom" "x" 7).products[0]? =
      some { riceP with current_price := 5500, last_updated := 7, updated_by := "Mom" } := by
  have h := C10_update_price_frame demoDB 1 5000 5500 "Mom" "x" 7 0 riceP (by decide)
  exact ⟨h.1, h.2.1, h.2.2.1, h.2.2.2.1, h.2.2.2.2.2 (by decide)⟩

end Mayomide
